import Mathlib

set_option maxRecDepth 40000

/-!
Shallow embedding of `src/progrev_bot.py` (a Telegram chatbot relaying user
messages to a chat-completion API), together with proofs of the specified
properties of its history store, completion gateway, message relay,
transport adapter and health endpoint.

The in-memory store `chat_histories : Dict[int, List[Dict[str, str]]]` is
modelled as an insertion-ordered association list, matching Python dict
semantics (assignment to an existing key keeps its position, a fresh key is
appended at the end).  The external completion API is an oracle parameter
`api : List Turn → Except ApiError String`; the external poll call of the
transport adapter is an outcome parameter.
-/

namespace ProgrevBot

/-- One role-tagged message, the Python dict `{"role": ..., "content": ...}`. -/
structure Turn where
  role : String
  content : String
  deriving DecidableEq, Repr

/-- The store `chat_histories`, as an insertion-ordered association list. -/
abbrev Store := List (Int × List Turn)

/-- `MAX_HISTORY = 20` from the source. -/
def MAX_HISTORY : Nat := 20

/-- `get_history(chat_id)`: returns the chat's sequence, and (like
`dict.setdefault`) the store with an empty entry materialised when the chat
was absent. -/
def get_history (chat_id : Int) (s : Store) : List Turn × Store :=
  match s.lookup chat_id with
  | some h => (h, s)
  | none => ([], s ++ [(chat_id, [])])

/-- Python dict assignment `chat_histories[chat_id] = h`: replaces the value
in place when the key exists, appends the entry otherwise. -/
def setEntry (chat_id : Int) (h : List Turn) : Store → Store
  | [] => [(chat_id, h)]
  | e :: rest =>
    if e.1 == chat_id then (chat_id, h) :: rest else e :: setEntry chat_id h rest

/-- `add_to_history(chat_id, role, content)`: append one turn, then trim to
the last `MAX_HISTORY` turns (`history[-MAX_HISTORY:]`) when over the cap. -/
def add_to_history (chat_id : Int) (role content : String) (s : Store) : Store :=
  let gh := get_history chat_id s
  let history := gh.1 ++ [⟨role, content⟩]
  if history.length > MAX_HISTORY then
    setEntry chat_id (history.drop (history.length - MAX_HISTORY)) gh.2
  else
    setEntry chat_id history gh.2

/-- `clear_history(chat_id)`: `del` the entry when present, then assign `[]`
(the fresh key lands at the end of the insertion order). -/
def clear_history (chat_id : Int) (s : Store) : Store :=
  (s.filter (fun e => e.1 != chat_id)) ++ [(chat_id, [])]

/-- The fixed system instruction `SYSTEM_PROMPT` (content opaque to all
properties below; only its role tag matters). -/
def SYSTEM_PROMPT : String :=
  "Ты — «Архитектор Прогрева», умный нейропомощник, который создаёт мягкий, но сильный прогрев, ведущий к продажам."

/-- The transient system turn prepended at completion-call time. -/
def systemTurn : Turn := ⟨"system", SYSTEM_PROMPT⟩

/-- The fixed user-facing fallback string returned when the completion call
raises. -/
def FALLBACK : String := "⚠️ Произошла ошибка при обращении к модели. Попробуй ещё раз."

/-- Error raised by the completion client (any `Exception` in the `except`
arm of `ask_groq`). -/
structure ApiError where
  msg : String
  deriving DecidableEq, Repr

/-- Result of one `ask_groq` call: the message list handed to the completion
API, the store after the call, and the text returned to the relay. -/
structure AskResult where
  apiInput : List Turn
  newStore : Store
  reply : String

/-- `ask_groq(chat_id, user_message)`: append the user turn, build
`[system] + history`, call the API; on success append the assistant turn and
return the reply, on any exception return `FALLBACK` (and append nothing). -/
def ask_groq (chat_id : Int) (user_message : String)
    (api : List Turn → Except ApiError String) (s : Store) : AskResult :=
  let s1 := add_to_history chat_id "user" user_message s
  let gh := get_history chat_id s1
  let messages := systemTurn :: gh.1
  match api messages with
  | Except.ok reply => ⟨messages, add_to_history chat_id "assistant" reply gh.2, reply⟩
  | Except.error _ => ⟨messages, gh.2, FALLBACK⟩

/-- The chunking loop `for i in range(0, len(reply), 4096)` over the reply's
characters. -/
def chunkLoop (l : List Char) : List (List Char) :=
  if h : l = [] then [] else l.take 4096 :: chunkLoop (l.drop 4096)
termination_by l.length
decreasing_by
  simp only [List.length_drop]
  have hp : 0 < l.length := List.length_pos.mpr h
  omega

/-- The send step of `handle_message`: a reply of at most 4096 characters is
sent whole, a longer one is sent as consecutive 4096-character slices. -/
def sendReply (reply : String) : List (List Char) :=
  if reply.length ≤ 4096 then [reply.data] else chunkLoop reply.data

/-- `handle_message`: ignore an absent or empty text (`if not user_text`),
otherwise run `ask_groq` and emit the (possibly chunked) reply.  Returns the
new store and the outbound messages in emission order. -/
def handle_message (chat_id : Int) (text : Option String)
    (api : List Turn → Except ApiError String) (s : Store) :
    Store × List (List Char) :=
  match text with
  | none => (s, [])
  | some user_text =>
    if user_text = "" then (s, [])
    else
      let r := ask_groq chat_id user_text api s
      (r.newStore, sendReply r.reply)

/-- The fixed welcome message of `/start`. -/
def WELCOME : String :=
  "👋 Привет! Я — *Архитектор Прогрева*\\.\n\nЯ создам для тебя структуру прогрева, которая реально приводит к продажам\\.\n\nРасскажи, что хочешь продавать — и я задам несколько вопросов, чтобы собрать архитектуру прогрева под тебя 🔥"

/-- `cmd_start`: clear the history, emit the welcome message. -/
def cmd_start (chat_id : Int) (s : Store) : Store × List String :=
  (clear_history chat_id s, [WELCOME])

/-- `cmd_reset`: clear the history, emit the fixed acknowledgment. -/
def cmd_reset (chat_id : Int) (s : Store) : Store × List String :=
  (clear_history chat_id s, ["🔄 История очищена. Начинаем с чистого листа!"])

/-- `/health`: 503 "Shutting down" when the shutdown flag is set, else
200 "OK". -/
def health (is_shutting_down : Bool) : Nat × String :=
  if is_shutting_down then (503, "Shutting down") else (200, "OK")

/-- `handle_sigterm`: single-shot — return early when the flag is already
set, otherwise set it.  Never clears the flag. -/
def handle_sigterm (is_shutting_down : Bool) : Bool :=
  if is_shutting_down then is_shutting_down else true

/-- Outcome of the single `dp.start_polling(bot)` call inside
`start_polling`: normal completion, `asyncio.CancelledError`, or any other
exception with its message. -/
inductive PollOutcome where
  | ok : PollOutcome
  | cancelled : PollOutcome
  | error : String → PollOutcome
  deriving DecidableEq, Repr

/-- Observable actions of the transport adapter's poll wrapper. -/
inductive PollAction where
  | poll : PollAction
  | logError : String → PollAction
  | sleep : Nat → PollAction
  deriving DecidableEq, Repr

/-- `start_polling`: one `dp.start_polling` call; a `CancelledError` is
swallowed, any other exception is logged; in every case the function then
returns (no backoff sleep, no second poll). -/
def start_polling (outcome : PollOutcome) : List PollAction :=
  match outcome with
  | PollOutcome.ok => [PollAction.poll]
  | PollOutcome.cancelled => [PollAction.poll]
  | PollOutcome.error m => [PollAction.poll, PollAction.logError ("Polling error: " ++ m)]

/-- One inbound update dispatched by aiogram: `/start`, `/reset`, or a plain
message with its (possibly absent) text and the API behaviour during its
handling. -/
inductive Op where
  | message : Int → Option String → (List Turn → Except ApiError String) → Op
  | start : Int → Op
  | reset : Int → Op

/-- Effect of one dispatched update on the history store. -/
def stepOp (s : Store) : Op → Store
  | Op.message c t api => (handle_message c t api s).1
  | Op.start c => (cmd_start c s).1
  | Op.reset c => (cmd_reset c s).1

/-- No turn with role `"system"` occurs anywhere in the store. -/
def noSystemStored (s : Store) : Bool :=
  s.all (fun e => e.2.all (fun t => t.role != "system"))

/-- The stored history of one chat (the empty sequence when absent). -/
def histOf (chat_id : Int) (s : Store) : List Turn :=
  (s.lookup chat_id).getD []

/-- Keep the most recent `MAX_HISTORY` turns (identity under the cap). -/
def trim20 (l : List Turn) : List Turn :=
  l.drop (l.length - MAX_HISTORY)

/-- Fold a sequence of appends for one chat through `add_to_history`. -/
def runAppends (chat_id : Int) (ts : List Turn) (s : Store) : Store :=
  ts.foldl (fun st t => add_to_history chat_id t.role t.content st) s

/-- The 25 user turns "message 1" … "message 25" of the spec scenario. -/
def scenarioTurns : List Turn :=
  (List.range 25).map (fun i => ⟨"user", "message " ++ Nat.repr (i + 1)⟩)

/-! ### Store lemmas -/

theorem lookup_setEntry_self (c : Int) (h : List Turn) (s : Store) :
    (setEntry c h s).lookup c = some h := by
  induction s with
  | nil => simp [setEntry, List.lookup]
  | cons e rest ih =>
    rw [setEntry]
    by_cases hek : e.1 = c
    · simp [hek, List.lookup]
    · have hb : (e.1 == c) = false := by simp [hek]
      have hb2 : (c == e.1) = false := by simp [Ne.symm hek]
      rw [if_neg (by simp [hek]), List.lookup, hb2, ih]

theorem get_history_fst (c : Int) (s : Store) : (get_history c s).1 = histOf c s := by
  rw [get_history, histOf]
  cases s.lookup c <;> simp

theorem trim20_of_le (l : List Turn) (hl : l.length ≤ MAX_HISTORY) : trim20 l = l := by
  rw [trim20, show l.length - MAX_HISTORY = 0 from by omega, List.drop_zero]

theorem add_eq_setEntry (c : Int) (r x : String) (s : Store) :
    add_to_history c r x s
      = setEntry c (trim20 (histOf c s ++ [⟨r, x⟩])) (get_history c s).2 := by
  simp only [add_to_history, get_history_fst]
  by_cases hlen : (histOf c s ++ [Turn.mk r x]).length > MAX_HISTORY
  · rw [if_pos hlen, trim20]
  · rw [if_neg hlen, trim20_of_le _ (by omega)]

theorem lookup_add (c : Int) (r x : String) (s : Store) :
    (add_to_history c r x s).lookup c = some (trim20 (histOf c s ++ [⟨r, x⟩])) := by
  rw [add_eq_setEntry, lookup_setEntry_self]

theorem histOf_add (c : Int) (r x : String) (s : Store) :
    histOf c (add_to_history c r x s) = trim20 (histOf c s ++ [⟨r, x⟩]) := by
  rw [histOf, lookup_add, Option.getD_some]

theorem get_history_add (c : Int) (r x : String) (s : Store) :
    get_history c (add_to_history c r x s)
      = (trim20 (histOf c s ++ [⟨r, x⟩]), add_to_history c r x s) := by
  rw [get_history, lookup_add]

/-! ### Trimming lemmas -/

theorem trim20_length_le (l : List Turn) : (trim20 l).length ≤ MAX_HISTORY := by
  rw [trim20, List.length_drop]
  omega

theorem trim20_absorb (a b : List Turn) : trim20 (trim20 a ++ b) = trim20 (a ++ b) := by
  rw [trim20, trim20, trim20,
    ← List.drop_append_of_le_length (show a.length - MAX_HISTORY ≤ a.length by omega),
    List.drop_drop, List.length_drop, List.length_append]
  congr 1
  omega

theorem trim20_getLast (h : List Turn) (t : Turn) :
    (trim20 (h ++ [t])).getLast? = some t := by
  rw [trim20,
    List.drop_append_of_le_length
      (show (h ++ [t]).length - MAX_HISTORY ≤ h.length by simp [MAX_HISTORY])]
  exact List.getLast?_concat _

theorem foldl_trimAppend (ts : List Turn) :
    ∀ h : List Turn, h.length ≤ MAX_HISTORY →
      ts.foldl (fun acc t => trim20 (acc ++ [t])) h = trim20 (h ++ ts) := by
  induction ts with
  | nil => intro h hh; simp [trim20_of_le h hh]
  | cons t ts ih =>
    intro h hh
    rw [List.foldl_cons, ih _ (trim20_length_le _), trim20_absorb, List.append_assoc,
      List.singleton_append]

theorem histOf_runAppends (c : Int) (ts : List Turn) :
    ∀ s : Store,
      histOf c (runAppends c ts s)
        = ts.foldl (fun acc t => trim20 (acc ++ [t])) (histOf c s) := by
  induction ts with
  | nil => intro s; rfl
  | cons t ts ih =>
    intro s
    rw [show runAppends c (t :: ts) s
        = runAppends c ts (add_to_history c t.role t.content s) from rfl,
      ih, List.foldl_cons, histOf_add]

/-! ### Chunking lemmas -/

theorem chunkLoop_flatten (l : List Char) : (chunkLoop l).flatten = l := by
  induction l using chunkLoop.induct with
  | case1 => simp [chunkLoop]
  | case2 l h ih =>
    rw [chunkLoop, dif_neg h, List.flatten_cons, ih, List.take_append_drop]

theorem chunkLoop_all (l : List Char) :
    ((chunkLoop l).all (fun chunk => chunk.length ≤ 4096)) = true := by
  induction l using chunkLoop.induct with
  | case1 => simp [chunkLoop]
  | case2 l h ih =>
    rw [chunkLoop, dif_neg h, List.all_cons, ih, Bool.and_true]
    simp [List.length_take]

theorem chunkLoop_length (l : List Char) :
    (chunkLoop l).length = (l.length + 4095) / 4096 := by
  induction l using chunkLoop.induct with
  | case1 => simp [chunkLoop]
  | case2 l h ih =>
    rw [chunkLoop, dif_neg h, List.length_cons, ih, List.length_drop]
    have hp : 0 < l.length := List.length_pos.mpr h
    omega

theorem string_length_data (r : String) : r.length = r.data.length := rfl

theorem sendReply_flatten (r : String) : (sendReply r).flatten = r.data := by
  rw [sendReply]
  by_cases hr : r.length ≤ 4096
  · rw [if_pos hr]; simp
  · rw [if_neg hr]; exact chunkLoop_flatten r.data

theorem sendReply_all (r : String) :
    ((sendReply r).all (fun chunk => chunk.length ≤ 4096)) = true := by
  rw [sendReply]
  by_cases hr : r.length ≤ 4096
  · rw [if_pos hr]
    simp only [List.all_cons, List.all_nil, Bool.and_true]
    rw [← string_length_data]
    simp [hr]
  · rw [if_neg hr]; exact chunkLoop_all r.data

theorem sendReply_length (r : String) :
    (sendReply r).length = max 1 ((r.length + 4095) / 4096) := by
  rw [sendReply, string_length_data]
  by_cases hr : r.data.length ≤ 4096
  · rw [if_pos hr, List.length_singleton]
    omega
  · rw [if_neg hr, chunkLoop_length]
    omega

/-! ### Gateway lemmas -/

theorem ask_apiInput (c : Int) (msg : String) (api : List Turn → Except ApiError String)
    (s : Store) :
    (ask_groq c msg api s).apiInput
      = systemTurn :: trim20 (histOf c s ++ [⟨"user", msg⟩]) := by
  simp only [ask_groq, get_history_add]
  cases api (systemTurn :: trim20 (histOf c s ++ [Turn.mk "user" msg])) <;> rfl

theorem ask_ok (c : Int) (msg : String) (api : List Turn → Except ApiError String)
    (s : Store) (reply : String)
    (hok : api ((ask_groq c msg api s).apiInput) = Except.ok reply) :
    (ask_groq c msg api s).newStore
        = add_to_history c "assistant" reply (add_to_history c "user" msg s) ∧
      (ask_groq c msg api s).reply = reply := by
  rw [ask_apiInput] at hok
  simp only [ask_groq, get_history_add, hok]
  exact ⟨trivial, trivial⟩

theorem ask_error (c : Int) (msg : String) (api : List Turn → Except ApiError String)
    (s : Store) (e : ApiError)
    (hfail : api ((ask_groq c msg api s).apiInput) = Except.error e) :
    (ask_groq c msg api s).newStore = add_to_history c "user" msg s ∧
      (ask_groq c msg api s).reply = FALLBACK := by
  rw [ask_apiInput] at hfail
  simp only [ask_groq, get_history_add, hfail]
  exact ⟨trivial, trivial⟩

/-! ### Absence of stored system turns -/

theorem noSystem_histOf (c : Int) :
    ∀ s : Store, noSystemStored s = true →
      (histOf c s).all (fun t => t.role != "system") = true := by
  intro s
  induction s with
  | nil => intro _; rfl
  | cons e rest ih =>
    obtain ⟨k, v⟩ := e
    intro hs
    rw [noSystemStored, List.all_cons, Bool.and_eq_true] at hs
    rw [histOf, List.lookup]
    cases hck : c == k
    · exact ih hs.2
    · exact hs.1

theorem noSystem_setEntry (c : Int) (h : List Turn)
    (hh : h.all (fun t => t.role != "system") = true) :
    ∀ s : Store, noSystemStored s = true → noSystemStored (setEntry c h s) = true := by
  intro s
  induction s with
  | nil => intro _; simp [setEntry, noSystemStored, hh]
  | cons e rest ih =>
    intro hs
    rw [noSystemStored, List.all_cons, Bool.and_eq_true] at hs
    rw [setEntry]
    cases hek : e.1 == c
    · rw [if_neg (by simp [hek]), noSystemStored, List.all_cons]
      have h2 := ih hs.2
      rw [noSystemStored] at h2
      rw [h2, Bool.and_true]
      exact hs.1
    · rw [if_pos rfl, noSystemStored, List.all_cons]
      simp only [hh, Bool.true_and]
      exact hs.2

theorem noSystem_get_history (c : Int) (s : Store) (hs : noSystemStored s = true) :
    noSystemStored (get_history c s).2 = true := by
  rw [get_history]
  cases hl : s.lookup c
  · simp only []
    rw [noSystemStored, List.all_append, Bool.and_eq_true]
    exact ⟨hs, rfl⟩
  · exact hs

theorem noSystem_add (c : Int) (r x : String) (hr : (r != "system") = true) (s : Store)
    (hs : noSystemStored s = true) : noSystemStored (add_to_history c r x s) = true := by
  rw [add_eq_setEntry]
  apply noSystem_setEntry
  · rw [List.all_eq_true]
    intro t ht
    rw [trim20] at ht
    have ht2 : t ∈ histOf c s ++ [Turn.mk r x] := List.mem_of_mem_drop ht
    rcases List.mem_append.mp ht2 with hmem | hmem
    · exact List.all_eq_true.mp (noSystem_histOf c s hs) t hmem
    · rw [List.mem_singleton.mp hmem]; exact hr
  · exact noSystem_get_history c s hs

theorem noSystem_clear (c : Int) (s : Store) (hs : noSystemStored s = true) :
    noSystemStored (clear_history c s) = true := by
  rw [clear_history, noSystemStored, List.all_append, Bool.and_eq_true]
  constructor
  · rw [List.all_eq_true]
    intro e he
    exact List.all_eq_true.mp hs e (List.mem_filter.mp he).1
  · rfl

theorem noSystem_ask (c : Int) (msg : String) (api : List Turn → Except ApiError String)
    (s : Store) (hs : noSystemStored s = true) :
    noSystemStored (ask_groq c msg api s).newStore = true := by
  have h1 : noSystemStored (add_to_history c "user" msg s) = true :=
    noSystem_add c "user" msg rfl s hs
  cases hapi : api ((ask_groq c msg api s).apiInput) with
  | ok reply => exact (ask_ok c msg api s reply hapi).1 ▸ noSystem_add c "assistant" reply rfl _ h1
  | error e => exact (ask_error c msg api s e hapi).1 ▸ h1

theorem noSystem_handle (c : Int) (t : Option String)
    (api : List Turn → Except ApiError String) (s : Store) (hs : noSystemStored s = true) :
    noSystemStored (handle_message c t api s).1 = true := by
  cases t with
  | none => exact hs
  | some txt =>
    rw [handle_message]
    by_cases h0 : txt = ""
    · rw [if_pos h0]; exact hs
    · rw [if_neg h0]; exact noSystem_ask c txt api s hs

theorem noSystem_stepOp (s : Store) (op : Op) (hs : noSystemStored s = true) :
    noSystemStored (stepOp s op) = true := by
  cases op with
  | message c t api => exact noSystem_handle c t api s hs
  | start c => exact noSystem_clear c s hs
  | reset c => exact noSystem_clear c s hs

theorem noSystem_run (ops : List Op) :
    ∀ s : Store, noSystemStored s = true → noSystemStored (ops.foldl stepOp s) = true := by
  induction ops with
  | nil => intro s hs; exact hs
  | cons op ops ih => intro s hs; exact ih _ (noSystem_stepOp s op hs)

/-! ### Remaining helper lemmas -/

theorem lookup_filter_append (c : Int) (v : List Turn) :
    ∀ s : Store, List.lookup c (s.filter (fun e => e.1 != c) ++ [(c, v)]) = some v := by
  intro s
  induction s with
  | nil => simp [List.lookup]
  | cons e rest ih =>
    obtain ⟨k, w⟩ := e
    rw [List.filter_cons]
    by_cases hk : k = c
    · rw [if_neg (by simp [hk])]
      exact ih
    · rw [if_pos (by simp [hk]), List.cons_append, List.lookup]
      have hb : (c == k) = false := by simp [Ne.symm hk]
      rw [hb]
      exact ih

theorem foldl_sigterm_true (sigs : List Unit) :
    sigs.foldl (fun f _ => handle_sigterm f) true = true := by
  induction sigs with
  | nil => rfl
  | cons u rest ih => exact ih

/-! ### Claim theorems -/

/-- Claim C1: for every chat and every finite sequence of appends (cap 20),
after each append the stored length never exceeds 20, the retained turns are
exactly the most recently appended ones in original relative order (the final
suffix of the appended sequence), and append is total; in particular after the
25-message scenario "message 1" is absent and "message 25" is present. -/
theorem history_cap_sliding_window (c : Int) (ts : List Turn) :
    (histOf c (runAppends c ts [])).length ≤ MAX_HISTORY ∧
    histOf c (runAppends c ts []) = ts.drop (ts.length - MAX_HISTORY) ∧
    (histOf 1 (runAppends 1 scenarioTurns [])).length ≤ MAX_HISTORY ∧
    ((histOf 1 (runAppends 1 scenarioTurns [])).contains ⟨"user", "message 1"⟩) = false ∧
    ((histOf 1 (runAppends 1 scenarioTurns [])).contains ⟨"user", "message 25"⟩) = true := by
  have key : histOf c (runAppends c ts []) = ts.drop (ts.length - MAX_HISTORY) := by
    rw [histOf_runAppends]
    rw [show histOf c ([] : Store) = [] from rfl,
      foldl_trimAppend ts [] (by simp), trim20]
    simp
  refine ⟨?_, key, by decide, by decide, by decide⟩
  rw [key, List.length_drop]
  omega

/-- Claim C2 (amended): an inbound message whose text is absent or the empty
string is a silent no-op — no history mutation, no outbound message.  (A
whitespace-only non-empty text is NOT ignored; see the counterexample.) -/
theorem empty_text_noop (c : Int) (api : List Turn → Except ApiError String) (s : Store) :
    handle_message c none api s = (s, []) ∧
    handle_message c (some "") api s = (s, []) := by
  exact ⟨rfl, by rw [handle_message, if_pos rfl]⟩

/-- Claim C2 counterexample: a whitespace-only message (" ") is processed —
the history is mutated (a user and an assistant turn are stored) and an
outbound message is sent — contradicting the claim that whitespace-only input
produces no history mutation and no outbound message. -/
theorem whitespace_not_ignored :
    handle_message 1 (some " ") (fun _ => Except.ok "ok") []
        = ([(1, [⟨"user", " "⟩, ⟨"assistant", "ok"⟩])], [['o', 'k']]) ∧
    ((handle_message 1 (some " ") (fun _ => Except.ok "ok") []).1.isEmpty) = false ∧
    ((handle_message 1 (some " ") (fun _ => Except.ok "ok") []).2.isEmpty) = false := by
  refine ⟨by decide, by decide, by decide⟩

/-- Claim C3 (amended): on any outcome of the single poll call the wrapper
exits without restarting: the trace contains exactly one poll, never a
5-second backoff sleep; a cancellation exits silently and an unexpected error
is logged and the wrapper returns. -/
theorem polling_exits_without_restart (o : PollOutcome) (m : String) :
    ((start_polling o).count PollAction.poll) = 1 ∧
    ((start_polling o).contains (PollAction.sleep 5)) = false ∧
    start_polling PollOutcome.cancelled = [PollAction.poll] ∧
    start_polling (PollOutcome.error m)
        = [PollAction.poll, PollAction.logError ("Polling error: " ++ m)] := by
  refine ⟨?_, ?_, rfl, rfl⟩ <;> cases o <;> rfl

/-- Claim C3 counterexample: after an unexpected poll failure (no shutdown
requested) the wrapper performs no 5-second backoff and does not restart the
loop (exactly one poll in the trace) — contradicting the claimed
wait-then-restart behaviour. -/
theorem polling_error_no_backoff_cex :
    start_polling (PollOutcome.error "boom")
        = [PollAction.poll, PollAction.logError "Polling error: boom"] ∧
    ((start_polling (PollOutcome.error "boom")).contains (PollAction.sleep 5)) = false ∧
    ((start_polling (PollOutcome.error "boom")).count PollAction.poll) = 1 := by
  refine ⟨by decide, by decide, by decide⟩

/-- Claim C4 (amended): chunks concatenate (in emission order) exactly to the
original reply, every chunk has at most 4096 characters, and the number of
chunks is `max 1 (ceil(L/4096))` — i.e. `ceil(L/4096)` for every non-empty
reply, but one (empty) chunk, not zero, for the empty reply. -/
theorem reply_chunking (r : String) :
    (sendReply r).flatten = r.data ∧
    ((sendReply r).all (fun chunk => chunk.length ≤ 4096)) = true ∧
    (sendReply r).length = max 1 ((r.length + 4095) / 4096) :=
  ⟨sendReply_flatten r, sendReply_all r, sendReply_length r⟩

/-- Claim C4 counterexample: for the empty reply (L = 0) the code emits one
(empty) chunk while `ceil(L/4096) = 0`, so the chunk count differs from
`ceil(L/4096)` at L = 0. -/
theorem empty_reply_one_chunk_cex :
    sendReply "" = [[]] ∧
    ((String.length "") + 4095) / 4096 = 0 ∧
    (((sendReply "").length) == ((String.length "") + 4095) / 4096) = false := by
  refine ⟨by decide, by decide, by decide⟩

/-- Claim C5: every completion-API failure is caught and converted into the
fixed fallback string: when the API call raises, `ask_groq` still returns
text, namely `FALLBACK`. -/
theorem gateway_error_returns_fallback (c : Int) (msg : String)
    (api : List Turn → Except ApiError String) (s : Store) (e : ApiError)
    (hfail : api ((ask_groq c msg api s).apiInput) = Except.error e) :
    (ask_groq c msg api s).reply = FALLBACK :=
  (ask_error c msg api s e hfail).2

/-- Witness for C5 at a concrete always-failing API. -/
theorem gateway_error_returns_fallback_witness :
    (ask_groq 1 "hi" (fun _ => Except.error (ApiError.mk "boom")) []).reply = FALLBACK :=
  gateway_error_returns_fallback 1 "hi" (fun _ => Except.error (ApiError.mk "boom")) []
    (ApiError.mk "boom") rfl

/-- Claim C6: the user turn is appended before the completion call (it is the
last turn of the history snapshot handed to the API) and the assistant turn is
appended after it; the "Привет"-to-a-fresh-chat scenario gives history
`[user "Привет"]` pre-call and `[user "Привет", assistant reply]` post-call. -/
theorem user_pre_assistant_post (c : Int) (msg : String)
    (api : List Turn → Except ApiError String) (s : Store) (reply : String)
    (hok : api ((ask_groq c msg api s).apiInput) = Except.ok reply) :
    (ask_groq c msg api s).apiInput
        = systemTurn :: histOf c (add_to_history c "user" msg s) ∧
    (histOf c (add_to_history c "user" msg s)).getLast? = some ⟨"user", msg⟩ ∧
    (ask_groq c msg api s).newStore
        = add_to_history c "assistant" reply (add_to_history c "user" msg s) ∧
    (histOf c ((ask_groq c msg api s).newStore)).getLast? = some ⟨"assistant", reply⟩ ∧
    (ask_groq 1 "Привет" (fun _ => Except.ok reply) []).apiInput
        = [systemTurn, ⟨"user", "Привет"⟩] ∧
    (ask_groq 1 "Привет" (fun _ => Except.ok reply) []).newStore
        = [(1, [⟨"user", "Привет"⟩, ⟨"assistant", reply⟩])] := by
  obtain ⟨hstore, hreply⟩ := ask_ok c msg api s reply hok
  refine ⟨?_, ?_, hstore, ?_, ?_, ?_⟩
  · rw [ask_apiInput, histOf_add]
  · rw [histOf_add]; exact trim20_getLast _ _
  · rw [hstore, histOf_add]; exact trim20_getLast _ _
  · rw [ask_apiInput]; rfl
  · rfl

/-- Witness for C6: the scenario API succeeding with "ok". -/
theorem user_pre_assistant_post_witness :
    (ask_groq 1 "Привет" (fun _ => Except.ok "ok") []).newStore
        = add_to_history 1 "assistant" "ok" (add_to_history 1 "user" "Привет" []) :=
  (user_pre_assistant_post 1 "Привет" (fun _ => Except.ok "ok") [] "ok" rfl).2.2.1

/-- Claim C7: no turn with role "system" is ever stored, over every finite
sequence of dispatched updates starting from the empty store; the system
instruction is prepended transiently at call time as `[system turn] + stored
turns`. -/
theorem system_turn_never_stored (ops : List Op) (c : Int) (msg : String)
    (api : List Turn → Except ApiError String) (s : Store) :
    noSystemStored (ops.foldl stepOp []) = true ∧
    (ask_groq c msg api s).apiInput
        = systemTurn :: (get_history c (add_to_history c "user" msg s)).1 := by
  constructor
  · exact noSystem_run ops [] rfl
  · rw [ask_apiInput, get_history_fst, histOf_add]

/-- Claim C8: for every chat id (known or unknown) and every prior content,
`clear` followed by `get` returns the empty sequence, and `clear` is
idempotent (both operations are total, hence never error). -/
theorem clear_then_get_empty (c : Int) (s : Store) :
    (get_history c (clear_history c s)).1 = [] ∧
    clear_history c (clear_history c s) = clear_history c s := by
  constructor
  · rw [get_history_fst, histOf, clear_history, lookup_filter_append]
    rfl
  · rw [clear_history, clear_history, List.filter_append]
    have h1 : List.filter (fun e => e.1 != c) [((c : Int), ([] : List Turn))] = [] := by
      simp
    have h2 : List.filter (fun e => e.1 != c) (List.filter (fun e => e.1 != c) s)
        = List.filter (fun e => e.1 != c) s :=
      List.filter_eq_self.mpr (fun a ha => (List.mem_filter.mp ha).2)
    rw [h1, h2, List.append_nil]

/-- Claim C9: the health endpoint answers 200 "OK" while the shutdown flag is
unset; a termination signal sets the flag, and from then on — over any further
sequence of signals, which never clear it — health answers 503
"Shutting down" and never again 200. -/
theorem health_after_shutdown (sigs : List Unit) :
    health false = (200, "OK") ∧
    handle_sigterm false = true ∧
    health ((() :: sigs).foldl (fun f _ => handle_sigterm f) false) = (503, "Shutting down") ∧
    health (sigs.foldl (fun f _ => handle_sigterm f) true) = (503, "Shutting down") := by
  refine ⟨rfl, rfl, ?_, ?_⟩
  · rw [List.foldl_cons, show handle_sigterm false = true from rfl, foldl_sigterm_true]
    rfl
  · rw [foldl_sigterm_true]
    rfl

/-- Claim C10: when the completion call fails, the fallback string is not
appended to the history — the store after `ask_groq` is exactly the store with
the just-appended user turn, which is the last stored turn (no assistant turn
was added), so the unanswered user message is replayed on the next call. -/
theorem fallback_not_appended (c : Int) (msg : String)
    (api : List Turn → Except ApiError String) (s : Store) (e : ApiError)
    (hfail : api ((ask_groq c msg api s).apiInput) = Except.error e) :
    (ask_groq c msg api s).newStore = add_to_history c "user" msg s ∧
    (ask_groq c msg api s).reply = FALLBACK ∧
    (histOf c ((ask_groq c msg api s).newStore)).getLast? = some ⟨"user", msg⟩ := by
  obtain ⟨hstore, hreply⟩ := ask_error c msg api s e hfail
  exact ⟨hstore, hreply, by rw [hstore, histOf_add]; exact trim20_getLast _ _⟩

/-- Witness for C10 at a concrete failing API. -/
theorem fallback_not_appended_witness :
    (ask_groq 2 "вопрос" (fun _ => Except.error (ApiError.mk "timeout")) []).newStore
        = add_to_history 2 "user" "вопрос" [] :=
  (fallback_not_appended 2 "вопрос" (fun _ => Except.error (ApiError.mk "timeout")) []
    (ApiError.mk "timeout") rfl).1

end ProgrevBot
